import Mathlib

/-!
Verification model of the nx-std mono synchronization primitives.

The repository ships the public headers (`nx_sys_sync_mutex.h`,
`nx_sys_sync_condvar.h`, `nx_sys_sync_rwlock.h`, `nx_sys_sync_barrier.h`,
`nx_sync_remutex.h`, `nx_sync_oneshot.h`) and the on-target test-suite
sources; the `.c` implementation files of the primitives themselves are not
in the tree.  Every operational definition below is therefore modelled from
the specification's algorithm descriptions (spec.md sections 4.1-4.7), kept
consistent with the observable values the in-tree tests assert
(`tests/source/sync/mutex.c`, `condvar.c`, the remutex, rwlock, barrier and
oneshot suites).

Machine words are modelled as `Nat` with explicit bounds: an owner tag
occupies bits 29..0 of the 32-bit mutex word, so it is `< 2^30`, and
or-ing the contention bit `0x40000000` into such a word is ordinary
addition.
-/

/-- Modelled from the spec: bit 30 of the mutex word is the HAS_LISTENERS
contention bit (`#define HANDLE_WAIT_MASK 0x40000000` in the tests). -/
def HAS_LISTENERS : Nat := 0x40000000

/-- Modelled from the spec: the state of one mutex word together with the
kernel arbiter's wait queue on that word.  `owner` is the owner tag held in
bits 29..0 (0 = unlocked), `listeners` is bit 30, and `waiters` is the list
of thread tags parked in the kernel arbiter on this word, in queue order. -/
structure MutexModel where
  owner : Nat
  listeners : Bool
  waiters : List Nat
  deriving DecidableEq, Repr

/-- Modelled from the spec: the observable 32-bit mutex word,
`owner_tag | (HAS_LISTENERS if set)`.  Since `owner < 2^30`, the C bit-or
with `0x40000000` is the addition below. -/
def mutex_word (s : MutexModel) : Nat :=
  s.owner + (if s.listeners then HAS_LISTENERS else 0)

/-- Modelled from the spec: `init(m)` sets the word to 0 (and no thread is
parked on a fresh word). -/
def nx_sys_sync_mutex_init : MutexModel := ⟨0, false, []⟩

/-- Modelled from the spec: `try_lock(m)` attempts a compare-and-swap from 0
to `self_tag`; it succeeds iff the word was 0, with no blocking. -/
def nx_sys_sync_mutex_try_lock (t : Nat) (s : MutexModel) : Bool × MutexModel :=
  if mutex_word s = 0 then (true, { s with owner := t }) else (false, s)

/-- Modelled from the spec: `lock(m)`.  If the word is 0 the CAS (or the
arbiter's re-read) installs `self_tag`; otherwise the kernel arbiter sets
HAS_LISTENERS on the word and parks the caller on it. -/
def nx_sys_sync_mutex_lock (t : Nat) (s : MutexModel) : MutexModel :=
  if mutex_word s = 0 then { s with owner := t }
  else { s with listeners := true, waiters := s.waiters ++ [t] }

/-- Modelled from the spec: `unlock(m)`.  If HAS_LISTENERS is clear the CAS
`self_tag -> 0` clears the word; otherwise `arbitrate_unlock` hands
ownership to the next waiter (clearing HAS_LISTENERS iff the queue empties)
or clears the word when no waiter remains. -/
def nx_sys_sync_mutex_unlock (s : MutexModel) : MutexModel :=
  if s.listeners then
    match s.waiters with
    | [] => ⟨0, false, []⟩
    | w :: rest => ⟨w, decide (rest ≠ []), rest⟩
  else { s with owner := 0 }

/-- Modelled from the spec: `is_locked_by_current_thread(m)` is
`(word & ~HAS_LISTENERS) == self_tag`.  Mutex words never have bit 31 set,
so masking with `~HAS_LISTENERS` (`0xBFFFFFFF`) coincides with masking with
`0x3FFFFFFF`. -/
def nx_sys_sync_mutex_is_locked_by_current_thread (t : Nat) (s : MutexModel) : Bool :=
  mutex_word s &&& 0x3FFFFFFF == t

/-- One atomic step of the mutex protocol, taken by a thread whose tag is a
valid owner tag (non-zero, fits in bits 29..0).  A thread issues `lock` only
when it does not already own the word and is not already parked, and
`unlock` only as the current owner (contract violations are undefined
behavior at this layer). -/
inductive MutexStep : MutexModel → MutexModel → Prop where
  | lock : ∀ (s : MutexModel) (t : Nat), 0 < t → t < 2 ^ 30 → t ≠ s.owner →
      t ∉ s.waiters → MutexStep s (nx_sys_sync_mutex_lock t s)
  | try_lock : ∀ (s : MutexModel) (t : Nat), 0 < t → t < 2 ^ 30 →
      MutexStep s (nx_sys_sync_mutex_try_lock t s).2
  | unlock : ∀ (s : MutexModel) (t : Nat), 0 < t → s.owner = t →
      MutexStep s (nx_sys_sync_mutex_unlock s)

/-- States of the mutex protocol reachable from a freshly initialized
mutex. -/
def MutexReachable (s : MutexModel) : Prop :=
  Relation.ReflTransGen MutexStep nx_sys_sync_mutex_init s

/-- Inductive invariant of the mutex protocol. -/
structure MutexInv (s : MutexModel) : Prop where
  owner_lt : s.owner < 2 ^ 30
  listeners_iff : s.listeners = true ↔ s.waiters ≠ []
  owner_ne : s.listeners = true → s.owner ≠ 0
  waiters_ok : ∀ t ∈ s.waiters, 0 < t ∧ t < 2 ^ 30

theorem mutexInv_init : MutexInv nx_sys_sync_mutex_init := by
  refine ⟨by decide, by simp [nx_sys_sync_mutex_init], by simp [nx_sys_sync_mutex_init], ?_⟩
  simp [nx_sys_sync_mutex_init]

theorem mutex_word_eq_zero_iff (s : MutexModel) :
    mutex_word s = 0 ↔ s.owner = 0 ∧ s.listeners = false := by
  unfold mutex_word HAS_LISTENERS
  cases hl : s.listeners
  · simp
  · simp

theorem mutexInv_step {s s' : MutexModel} (h : MutexStep s s') (hs : MutexInv s) :
    MutexInv s' := by
  cases h with
  | lock t ht0 ht hto htw =>
    unfold nx_sys_sync_mutex_lock
    by_cases hw : mutex_word s = 0
    · rw [if_pos hw]
      obtain ⟨ho, hl⟩ := (mutex_word_eq_zero_iff s).mp hw
      have hwnil : s.waiters = [] := by
        by_contra hne
        have := hs.listeners_iff.mpr hne
        rw [hl] at this
        exact Bool.false_ne_true this
      refine ⟨ht, ?_, ?_, hs.waiters_ok⟩
      · simp [hl, hwnil]
      · simp [hl]
    · rw [if_neg hw]
      refine ⟨hs.owner_lt, by simp, ?_, ?_⟩
      · intro _ ho
        by_cases hl : s.listeners = true
        · exact hs.owner_ne hl ho
        · exact hw ((mutex_word_eq_zero_iff s).mpr ⟨ho, by simpa using hl⟩)
      · intro u hu
        rcases List.mem_append.mp hu with h1 | h2
        · exact hs.waiters_ok u h1
        · simp at h2; subst h2; exact ⟨ht0, ht⟩
  | try_lock t ht0 ht =>
    unfold nx_sys_sync_mutex_try_lock
    by_cases hw : mutex_word s = 0
    · rw [if_pos hw]
      obtain ⟨ho, hl⟩ := (mutex_word_eq_zero_iff s).mp hw
      have hwnil : s.waiters = [] := by
        by_contra hne
        have := hs.listeners_iff.mpr hne
        rw [hl] at this
        exact Bool.false_ne_true this
      refine ⟨ht, ?_, ?_, hs.waiters_ok⟩
      · simp [hl, hwnil]
      · simp [hl]
    · rw [if_neg hw]
      exact hs
  | unlock t ht0 hto =>
    unfold nx_sys_sync_mutex_unlock
    by_cases hl : s.listeners = true
    · rw [if_pos hl]
      have hne : s.waiters ≠ [] := hs.listeners_iff.mp hl
      cases hwq : s.waiters with
      | nil => exact absurd hwq hne
      | cons w rest =>
        have hw := hs.waiters_ok w (by rw [hwq]; exact List.mem_cons_self w rest)
        refine ⟨hw.2, by simp, ?_, ?_⟩
        · intro _ ho
          simp only [] at ho
          omega
        · intro u hu
          exact hs.waiters_ok u (by rw [hwq]; exact List.mem_cons_of_mem w hu)
    · rw [if_neg hl]
      have hl' : s.listeners = false := by simpa using hl
      have hwnil : s.waiters = [] := by
        by_contra hne
        have := hs.listeners_iff.mpr hne
        rw [hl'] at this
        exact Bool.false_ne_true this
      refine ⟨?_, ?_, ?_, hs.waiters_ok⟩
      · show (0 : Nat) < 2 ^ 30
        norm_num
      · simp [hl', hwnil]
      · simp [hl']

theorem mutexInv_reachable {s : MutexModel} (h : MutexReachable s) : MutexInv s := by
  induction h with
  | refl => exact mutexInv_init
  | tail _ hstep ih => exact mutexInv_step hstep ih

theorem mask_owner_of_lt {a : Nat} (ha : a < 2 ^ 30) : a &&& 0x3FFFFFFF = a := by
  have h : (0x3FFFFFFF : Nat) = 2 ^ 30 - 1 := by norm_num
  rw [h, Nat.and_pow_two_sub_one_eq_mod, Nat.mod_eq_of_lt ha]

theorem mask_owner_add_listeners {a : Nat} (ha : a < 2 ^ 30) :
    (a + HAS_LISTENERS) &&& 0x3FFFFFFF = a := by
  have h : (0x3FFFFFFF : Nat) = 2 ^ 30 - 1 := by norm_num
  have h2 : HAS_LISTENERS = 2 ^ 30 := by norm_num [HAS_LISTENERS]
  rw [h, Nat.and_pow_two_sub_one_eq_mod, h2]
  omega

theorem mutex_word_mask (s : MutexModel) (hs : s.owner < 2 ^ 30) :
    mutex_word s &&& 0x3FFFFFFF = s.owner := by
  unfold mutex_word
  cases hl : s.listeners
  · simpa using mask_owner_of_lt hs
  · simpa using mask_owner_add_listeners hs

theorem mutex_word_testBit30 (s : MutexModel) (hs : s.owner < 2 ^ 30) :
    (mutex_word s).testBit 30 = s.listeners := by
  have hp : (2 : Nat) ^ 30 = 1073741824 := by norm_num
  unfold mutex_word HAS_LISTENERS
  cases hl : s.listeners
  · simp only [Bool.false_eq_true, if_neg, Nat.add_zero, not_false_eq_true]
    rw [Nat.testBit_to_div_mod]
    simp only [decide_eq_false_iff_not]
    omega
  · simp only [if_pos]
    rw [Nat.testBit_to_div_mod]
    simp only [decide_eq_true_eq]
    omega

/-- C1: In every reachable state of a mutex under lock, try_lock and unlock
steps, at most one thread observes itself as the mutex owner
(`is_locked_by_current_thread` returns true for at most one tag), and
whenever bit 30 (HAS_LISTENERS) of the mutex word is set, the owner_tag
field (bits 29..0 of the word) is non-zero and at least one thread is
parked on the word. -/
theorem mutex_mutual_exclusion_and_contention_invariant (s : MutexModel)
    (hs : MutexReachable s) :
    (∀ t1 t2 : Nat,
        nx_sys_sync_mutex_is_locked_by_current_thread t1 s = true →
        nx_sys_sync_mutex_is_locked_by_current_thread t2 s = true → t1 = t2) ∧
    ((mutex_word s).testBit 30 = true →
        mutex_word s &&& 0x3FFFFFFF ≠ 0 ∧ s.waiters ≠ []) := by
  have hinv := mutexInv_reachable hs
  constructor
  · intro t1 t2 h1 h2
    unfold nx_sys_sync_mutex_is_locked_by_current_thread at h1 h2
    simp only [beq_iff_eq] at h1 h2
    omega
  · intro hbit
    have hl : s.listeners = true := by
      rw [← mutex_word_testBit30 s hinv.owner_lt]
      exact hbit
    refine ⟨?_, hinv.listeners_iff.mp hl⟩
    rw [mutex_word_mask s hinv.owner_lt]
    exact hinv.owner_ne hl

/-- Witness for C1: the invariant instantiated at the concrete reachable
state where thread 5 owns the mutex and thread 7 is parked on it. -/
theorem mutex_mutual_exclusion_and_contention_invariant_witness :
    (∀ t1 t2 : Nat,
        nx_sys_sync_mutex_is_locked_by_current_thread t1 ⟨5, true, [7]⟩ = true →
        nx_sys_sync_mutex_is_locked_by_current_thread t2 ⟨5, true, [7]⟩ = true → t1 = t2) ∧
    ((mutex_word ⟨5, true, [7]⟩).testBit 30 = true →
        mutex_word ⟨5, true, [7]⟩ &&& 0x3FFFFFFF ≠ 0 ∧
        (⟨5, true, [7]⟩ : MutexModel).waiters ≠ []) :=
  mutex_mutual_exclusion_and_contention_invariant ⟨5, true, [7]⟩ (by
    have h1 : MutexStep nx_sys_sync_mutex_init ⟨5, false, []⟩ := by
      have h := MutexStep.lock nx_sys_sync_mutex_init 5
        (by norm_num) (by norm_num) (by decide) (by decide)
      simpa [nx_sys_sync_mutex_lock, mutex_word, nx_sys_sync_mutex_init] using h
    have h2 : MutexStep ⟨5, false, []⟩ ⟨5, true, [7]⟩ := by
      have h := MutexStep.lock ⟨5, false, []⟩ 7
        (by norm_num) (by norm_num) (by decide) (by decide)
      simpa [nx_sys_sync_mutex_lock, mutex_word, HAS_LISTENERS] using h
    exact Relation.ReflTransGen.tail
      (Relation.ReflTransGen.tail Relation.ReflTransGen.refl h1) h2)

/-- Modelled from the spec: the two-thread lock-overlap schedule of
Scenario 1 (test_0003_mutex_two_threads_with_lock_overlap): thread A locks
the free mutex, thread B's lock parks B, A unlocks (kernel hand-off to B),
B unlocks.  The list collects the observable mutex word after each of the
four events. -/
def mutex_two_thread_overlap_words (a b : Nat) : List Nat :=
  let s1 := nx_sys_sync_mutex_lock a nx_sys_sync_mutex_init
  let s2 := nx_sys_sync_mutex_lock b s1
  let s3 := nx_sys_sync_mutex_unlock s2
  let s4 := nx_sys_sync_mutex_unlock s3
  [mutex_word s1, mutex_word s2, mutex_word s3, mutex_word s4]

/-- C2: In the schedule where A locks, B locks and blocks, A unlocks and
finally B unlocks, the mutex word passes through exactly: A's tag with
bit 30 clear, A's tag with bit 30 (HAS_LISTENERS) set, B's tag with bit 30
clear (after the hand-off to the sole waiter B), and 0. -/
theorem mutex_two_thread_overlap_word_sequence (a b : Nat)
    (ha0 : 0 < a) (ha : a < 2 ^ 30) (hb0 : 0 < b) (hb : b < 2 ^ 30) :
    mutex_two_thread_overlap_words a b = [a, a + HAS_LISTENERS, b, 0] ∧
    (a + HAS_LISTENERS).testBit 30 = true ∧
    Nat.testBit a 30 = false ∧ Nat.testBit b 30 = false := by
  have ha' : a ≠ 0 := by omega
  refine ⟨?_, ?_, ?_, ?_⟩
  · unfold mutex_two_thread_overlap_words nx_sys_sync_mutex_init
      nx_sys_sync_mutex_lock nx_sys_sync_mutex_unlock
    simp [mutex_word, HAS_LISTENERS, ha']
  · unfold HAS_LISTENERS
    rw [Nat.testBit_to_div_mod]
    simp only [decide_eq_true_eq]
    omega
  · rw [Nat.testBit_to_div_mod]
    simp only [decide_eq_false_iff_not]
    omega
  · rw [Nat.testBit_to_div_mod]
    simp only [decide_eq_false_iff_not]
    omega

/-- Witness for C2 with the concrete tags A = 5 and B = 7. -/
theorem mutex_two_thread_overlap_word_sequence_witness :
    mutex_two_thread_overlap_words 5 7 = [5, 5 + HAS_LISTENERS, 7, 0] ∧
    (5 + HAS_LISTENERS).testBit 30 = true ∧
    Nat.testBit 5 30 = false ∧ Nat.testBit 7 30 = false :=
  mutex_two_thread_overlap_word_sequence 5 7
    (by norm_num) (by norm_num) (by norm_num) (by norm_num)

/-- Modelled from the spec: the result code a condvar wait returns when the
timeout expires (`0xEA01`, libnx-style encoding, documented in
`nx_sys_sync_condvar.h`). -/
def CONDVAR_TIMEOUT_RESULT : Nat := 0xEA01

/-- Modelled from the spec: a condition variable is a single 32-bit key
word, and the kernel keeps a wait queue of the threads parked on that key.
Userspace only initializes the word to 0; its non-zero values are
kernel-managed. -/
structure CondVarModel where
  word : Nat
  waiters : List Nat
  deriving DecidableEq, Repr

/-- Modelled from the spec: the combined state a condvar protocol runs on:
the condvar key and the mutex associated with the waits. -/
structure CVSys where
  cv : CondVarModel
  mtx : MutexModel
  deriving DecidableEq, Repr

/-- Modelled from the spec: `init(c)` writes 0 to the key word. -/
def nx_sys_sync_condvar_init : CondVarModel := ⟨0, []⟩

/-- Modelled from the spec and the condvar tests: the enqueue half of
`wait_process_wide_key_atomic(&cv.word, &m.word, self_tag, timeout)`: it
atomically releases the mutex, parks the caller on the key, and marks the
key word non-zero (the tests observe the value 1 while threads are
parked). -/
def condvar_wait_enqueue (t : Nat) (s : CVSys) : CVSys :=
  ⟨⟨1, s.cv.waiters ++ [t]⟩, nx_sys_sync_mutex_unlock s.mtx⟩

/-- Modelled from the spec: a woken thread immediately re-acquires the
mutex through the arbiter (acquiring it if free, else parking on the mutex
word), so waking a list of threads folds the mutex lock over them. -/
def condvar_wake_list : List Nat → MutexModel → MutexModel
  | [], m => m
  | w :: ws, m => condvar_wake_list ws (nx_sys_sync_mutex_lock w m)

/-- Modelled from the spec and the condvar tests: `wake(cv, n)`
(`signal_process_wide_key`) releases the first `n` parked threads, each of
which re-acquires the mutex; the kernel rewrites the key word, zeroing it
exactly when the wait queue empties (test_0001 observes 0 after the last
waiter is woken). -/
def nx_sys_sync_condvar_wake (n : Nat) (s : CVSys) : CVSys :=
  ⟨⟨if s.cv.waiters.drop n = [] then 0 else 1, s.cv.waiters.drop n⟩,
    condvar_wake_list (s.cv.waiters.take n) s.mtx⟩

/-- Modelled from the spec: `wake_one(cv) = wake(cv, 1)`. -/
def nx_sys_sync_condvar_wake_one (s : CVSys) : CVSys :=
  nx_sys_sync_condvar_wake 1 s

/-- Modelled from the spec and test_0002_condvar_wait_timeout_expiry:
expiry of a `wait_timeout` for parked thread `t`: the kernel removes `t`
from the key queue without rewriting the key word (the test observes the
word still equal to 1 after the timeout), hands back the timeout result
code, and the mutex is re-acquired before the call returns. -/
def nx_sys_sync_condvar_wait_timeout_expire (t : Nat) (s : CVSys) : Nat × CVSys :=
  (CONDVAR_TIMEOUT_RESULT,
    ⟨⟨s.cv.word, s.cv.waiters.erase t⟩, nx_sys_sync_mutex_lock t s.mtx⟩)

/-- One atomic step of the condvar protocol: a plain mutex step, a wait
enqueue by the mutex owner, a wake, or a timeout expiry of a parked
thread. -/
inductive CVStep : CVSys → CVSys → Prop where
  | mtx_step : ∀ (s : CVSys) (m' : MutexModel), MutexStep s.mtx m' →
      CVStep s ⟨s.cv, m'⟩
  | wait : ∀ (s : CVSys) (t : Nat), 0 < t → t < 2 ^ 30 → s.mtx.owner = t →
      t ∉ s.cv.waiters → CVStep s (condvar_wait_enqueue t s)
  | wake : ∀ (s : CVSys) (n : Nat), CVStep s (nx_sys_sync_condvar_wake n s)
  | timeout : ∀ (s : CVSys) (t : Nat), t ∈ s.cv.waiters →
      CVStep s (nx_sys_sync_condvar_wait_timeout_expire t s).2

/-- States of the condvar protocol reachable from a freshly initialized
condvar and mutex. -/
def CVReachable (s : CVSys) : Prop :=
  Relation.ReflTransGen CVStep ⟨nx_sys_sync_condvar_init, nx_sys_sync_mutex_init⟩ s

theorem cv_word_one_of_waiters {s s' : CVSys} (h : CVStep s s')
    (hs : s.cv.waiters ≠ [] → s.cv.word = 1) :
    s'.cv.waiters ≠ [] → s'.cv.word = 1 := by
  cases h with
  | mtx_step m' hm => exact hs
  | wait t ht0 ht hto htw => intro _; rfl
  | wake n =>
    unfold nx_sys_sync_condvar_wake
    intro hne
    simp only [] at hne ⊢
    rw [if_neg hne]
  | timeout t htw =>
    unfold nx_sys_sync_condvar_wait_timeout_expire
    intro hne
    simp only [] at hne ⊢
    apply hs
    intro hnil
    rw [hnil] at hne
    simp [List.erase] at hne

theorem cv_word_invariant_reachable {s : CVSys} (h : CVReachable s) :
    s.cv.waiters ≠ [] → s.cv.word = 1 := by
  induction h with
  | refl => simp [nx_sys_sync_condvar_init]
  | tail _ hstep ih => exact cv_word_one_of_waiters hstep ih

/-- Counterexample to C3: replaying the schedule of
test_0002_condvar_wait_timeout_expiry (a thread with tag 7 locks the mutex,
waits on the condvar, times out without ever being signalled, and unlocks)
reaches a state in which no thread is parked on the condvar but the condvar
word is 1, not 0 — exactly the word value the test asserts after the
timeout. -/
theorem condvar_word_after_timeout_counterexample :
    CVReachable ⟨⟨1, []⟩, ⟨0, false, []⟩⟩ ∧
    (⟨⟨1, []⟩, ⟨0, false, []⟩⟩ : CVSys).cv.waiters = [] ∧
    (⟨⟨1, []⟩, ⟨0, false, []⟩⟩ : CVSys).cv.word ≠ 0 := by
  refine ⟨?_, rfl, by decide⟩
  have h1 : CVStep ⟨⟨0, []⟩, ⟨0, false, []⟩⟩ ⟨⟨0, []⟩, ⟨7, false, []⟩⟩ := by
    have hm : MutexStep ⟨0, false, []⟩ ⟨7, false, []⟩ := by
      have h := MutexStep.lock ⟨0, false, []⟩ 7
        (by norm_num) (by norm_num) (by decide) (by decide)
      simpa [nx_sys_sync_mutex_lock, mutex_word] using h
    exact CVStep.mtx_step ⟨⟨0, []⟩, ⟨0, false, []⟩⟩ ⟨7, false, []⟩ hm
  have h2 : CVStep ⟨⟨0, []⟩, ⟨7, false, []⟩⟩ ⟨⟨1, [7]⟩, ⟨0, false, []⟩⟩ := by
    have h := CVStep.wait ⟨⟨0, []⟩, ⟨7, false, []⟩⟩ 7
      (by norm_num) (by norm_num) rfl (by decide)
    simpa [condvar_wait_enqueue, nx_sys_sync_mutex_unlock] using h
  have h3 : CVStep ⟨⟨1, [7]⟩, ⟨0, false, []⟩⟩ ⟨⟨1, []⟩, ⟨7, false, []⟩⟩ := by
    have h := CVStep.timeout ⟨⟨1, [7]⟩, ⟨0, false, []⟩⟩ 7 (by decide)
    simpa [nx_sys_sync_condvar_wait_timeout_expire, nx_sys_sync_mutex_lock,
      mutex_word, List.erase] using h
  have h4 : CVStep ⟨⟨1, []⟩, ⟨7, false, []⟩⟩ ⟨⟨1, []⟩, ⟨0, false, []⟩⟩ := by
    have hm : MutexStep ⟨7, false, []⟩ ⟨0, false, []⟩ := by
      have h := MutexStep.unlock ⟨7, false, []⟩ 7 (by norm_num) rfl
      simpa [nx_sys_sync_mutex_unlock] using h
    exact CVStep.mtx_step ⟨⟨1, []⟩, ⟨7, false, []⟩⟩ ⟨0, false, []⟩ hm
  exact Relation.ReflTransGen.tail
    (Relation.ReflTransGen.tail
      (Relation.ReflTransGen.tail
        (Relation.ReflTransGen.tail Relation.ReflTransGen.refl h1) h2) h3) h4

/-- C3 (amended): in every reachable state the condvar word is non-zero
whenever at least one thread is parked on the condvar, and a wake that
empties the wait queue resets the word to 0; after a timed-out wait,
however, the word may remain non-zero although no waiter is parked (see the
counterexample above). -/
theorem condvar_word_reflects_waiters (s : CVSys) (hs : CVReachable s) :
    (s.cv.waiters ≠ [] → s.cv.word ≠ 0) ∧
    (∀ n : Nat, (nx_sys_sync_condvar_wake n s).cv.waiters = [] →
      (nx_sys_sync_condvar_wake n s).cv.word = 0) := by
  constructor
  · intro hne
    rw [cv_word_invariant_reachable hs hne]
    decide
  · intro n h
    unfold nx_sys_sync_condvar_wake at h ⊢
    simp only [] at h ⊢
    rw [if_pos h]

/-- Witness for C3 (amended) at the concrete reachable state where thread 7
is parked on the condvar. -/
theorem condvar_word_reflects_waiters_witness :
    ((⟨⟨1, [7]⟩, ⟨0, false, []⟩⟩ : CVSys).cv.waiters ≠ [] →
      (⟨⟨1, [7]⟩, ⟨0, false, []⟩⟩ : CVSys).cv.word ≠ 0) ∧
    (∀ n : Nat,
      (nx_sys_sync_condvar_wake n ⟨⟨1, [7]⟩, ⟨0, false, []⟩⟩).cv.waiters = [] →
      (nx_sys_sync_condvar_wake n ⟨⟨1, [7]⟩, ⟨0, false, []⟩⟩).cv.word = 0) :=
  condvar_word_reflects_waiters ⟨⟨1, [7]⟩, ⟨0, false, []⟩⟩ (by
    have h1 : CVStep ⟨⟨0, []⟩, ⟨0, false, []⟩⟩ ⟨⟨0, []⟩, ⟨7, false, []⟩⟩ := by
      have hm : MutexStep ⟨0, false, []⟩ ⟨7, false, []⟩ := by
        have h := MutexStep.lock ⟨0, false, []⟩ 7
          (by norm_num) (by norm_num) (by decide) (by decide)
        simpa [nx_sys_sync_mutex_lock, mutex_word] using h
      exact CVStep.mtx_step ⟨⟨0, []⟩, ⟨0, false, []⟩⟩ ⟨7, false, []⟩ hm
    have h2 : CVStep ⟨⟨0, []⟩, ⟨7, false, []⟩⟩ ⟨⟨1, [7]⟩, ⟨0, false, []⟩⟩ := by
      have h := CVStep.wait ⟨⟨0, []⟩, ⟨7, false, []⟩⟩ 7
        (by norm_num) (by norm_num) rfl (by decide)
      simpa [condvar_wait_enqueue, nx_sys_sync_mutex_unlock] using h
    exact Relation.ReflTransGen.tail
      (Relation.ReflTransGen.tail Relation.ReflTransGen.refl h1) h2)

/-- C4: when a `wait_timeout` that was never signalled expires (the caller
is still parked on the condvar), the call returns the distinct timeout
result code 0xEA01 (not 0) and the caller has re-acquired the mutex upon
return (stated here for an expiry at which the mutex word is free; a
contended re-acquisition goes through the same arbiter hand-off as any
mutex lock). -/
theorem condvar_wait_timeout_returns_timeout_code (s : CVSys) (t : Nat)
    (ht0 : 0 < t) (ht : t < 2 ^ 30) (hw : t ∈ s.cv.waiters)
    (hm : mutex_word s.mtx = 0) :
    (nx_sys_sync_condvar_wait_timeout_expire t s).1 = 0xEA01 ∧
    (nx_sys_sync_condvar_wait_timeout_expire t s).1 ≠ 0 ∧
    (nx_sys_sync_condvar_wait_timeout_expire t s).2.mtx.owner = t ∧
    nx_sys_sync_mutex_is_locked_by_current_thread t
      (nx_sys_sync_condvar_wait_timeout_expire t s).2.mtx = true := by
  obtain ⟨ho, hl⟩ := (mutex_word_eq_zero_iff s.mtx).mp hm
  unfold nx_sys_sync_condvar_wait_timeout_expire nx_sys_sync_mutex_lock
  rw [if_pos hm]
  refine ⟨rfl, ?_, rfl, ?_⟩
  · show CONDVAR_TIMEOUT_RESULT ≠ 0
    decide
  unfold nx_sys_sync_mutex_is_locked_by_current_thread mutex_word
  simp [hl, mask_owner_of_lt ht]

/-- Witness for C4: timeout expiry of thread 7 parked on the condvar with
the mutex free. -/
theorem condvar_wait_timeout_returns_timeout_code_witness :
    (nx_sys_sync_condvar_wait_timeout_expire 7 ⟨⟨1, [7]⟩, ⟨0, false, []⟩⟩).1 = 0xEA01 ∧
    (nx_sys_sync_condvar_wait_timeout_expire 7 ⟨⟨1, [7]⟩, ⟨0, false, []⟩⟩).1 ≠ 0 ∧
    (nx_sys_sync_condvar_wait_timeout_expire 7 ⟨⟨1, [7]⟩, ⟨0, false, []⟩⟩).2.mtx.owner = 7 ∧
    nx_sys_sync_mutex_is_locked_by_current_thread 7
      (nx_sys_sync_condvar_wait_timeout_expire 7 ⟨⟨1, [7]⟩, ⟨0, false, []⟩⟩).2.mtx = true :=
  condvar_wait_timeout_returns_timeout_code ⟨⟨1, [7]⟩, ⟨0, false, []⟩⟩ 7
    (by norm_num) (by norm_num) (by decide) (by decide)

/-- Modelled from the spec: a reentrant mutex aggregates an inner mutex, an
`owner_tag` and a recursion `counter` (newlib `_LOCK_RECURSIVE_T`; the
remutex tests read the `counter` field directly). -/
structure ReentrantMutexModel where
  mutex : MutexModel
  owner_tag : Nat
  counter : Nat
  deriving DecidableEq, Repr

/-- Modelled from the spec: `init(r)` clears everything. -/
def nx_sync_remutex_init : ReentrantMutexModel := ⟨nx_sys_sync_mutex_init, 0, 0⟩

/-- Modelled from the spec: `lock(r)`: if the caller already owns the
remutex, bump the counter; otherwise lock the inner mutex and take
ownership with counter 1.  In this completed-call model the result is
`none` when the caller would block on the inner mutex. -/
def nx_sync_remutex_lock (t : Nat) (r : ReentrantMutexModel) :
    Option ReentrantMutexModel :=
  if r.owner_tag = t then some { r with counter := r.counter + 1 }
  else if mutex_word r.mutex = 0 then
    some ⟨nx_sys_sync_mutex_lock t r.mutex, t, 1⟩
  else none

/-- Modelled from the spec: `try_lock(r)`: like `lock` but a contended
inner mutex yields `false` with no state change instead of blocking. -/
def nx_sync_remutex_try_lock (t : Nat) (r : ReentrantMutexModel) :
    Bool × ReentrantMutexModel :=
  if r.owner_tag = t then (true, { r with counter := r.counter + 1 })
  else if mutex_word r.mutex = 0 then
    (true, ⟨nx_sys_sync_mutex_lock t r.mutex, t, 1⟩)
  else (false, r)

/-- Modelled from the spec: `unlock(r)`: decrement the counter; if it is
still positive return, otherwise clear the owner tag and unlock the inner
mutex. -/
def nx_sync_remutex_unlock (r : ReentrantMutexModel) : ReentrantMutexModel :=
  if 0 < r.counter - 1 then { r with counter := r.counter - 1 }
  else ⟨nx_sys_sync_mutex_unlock r.mutex, 0, 0⟩

/-- One remutex call in a trace, tagged with the calling thread. -/
inductive RMuOp where
  | lock : Nat → RMuOp
  | try_lock : Nat → RMuOp
  | unlock : Nat → RMuOp
  deriving DecidableEq, Repr

/-- Calling thread of a remutex trace operation. -/
def RMuOp.tag : RMuOp → Nat
  | .lock t => t
  | .try_lock t => t
  | .unlock t => t

/-- One completed remutex call: `lock` completes only when it does not
block, `try_lock` always completes, and `unlock` respects the usage
contract (only the owner, with a positive counter, unlocks). -/
def remutex_replay_state (r : ReentrantMutexModel) : RMuOp → Option ReentrantMutexModel
  | .lock t => nx_sync_remutex_lock t r
  | .try_lock t => some (nx_sync_remutex_try_lock t r).2
  | .unlock t =>
    if r.owner_tag = t ∧ 0 < r.counter then some (nx_sync_remutex_unlock r) else none

/-- Runs a trace of remutex calls from a given state. -/
def remutex_run_state (r : ReentrantMutexModel) : List RMuOp → Option ReentrantMutexModel
  | [] => some r
  | op :: ops =>
    match remutex_replay_state r op with
    | some r1 => remutex_run_state r1 ops
    | none => none

/-- Contribution of one completed call to thread `t`'s number of unmatched
lock calls: a completed `lock t` always adds one, a `try_lock t` adds one
exactly when it succeeds (owner already `t`, or inner mutex free), and an
`unlock t` removes one. -/
def remutex_lock_delta (t : Nat) (r : ReentrantMutexModel) : RMuOp → Int
  | .lock u => if u = t then 1 else 0
  | .try_lock u =>
    if u = t ∧ (r.owner_tag = u ∨ mutex_word r.mutex = 0) then 1 else 0
  | .unlock u => if u = t then -1 else 0

/-- Number of unmatched lock calls of thread `t` accumulated by a trace run
from state `r`. -/
def remutex_unmatched_count (t : Nat) (r : ReentrantMutexModel) : List RMuOp → Int
  | [] => 0
  | op :: ops =>
    match remutex_replay_state r op with
    | some r1 => remutex_lock_delta t r op + remutex_unmatched_count t r1 ops
    | none => 0

/-- Inductive invariant of the remutex completed-call model: the inner
mutex is exactly the owner tag (free iff the remutex is free), and the
owner tag is 0 exactly when the counter is 0. -/
structure RMuInv (r : ReentrantMutexModel) : Prop where
  mirror : r.mutex = ⟨r.owner_tag, false, []⟩
  zero_iff : r.owner_tag = 0 ↔ r.counter = 0

theorem rMuInv_init : RMuInv nx_sync_remutex_init :=
  ⟨rfl, by simp [nx_sync_remutex_init]⟩

theorem remutex_replay_state_inv {r r1 : ReentrantMutexModel} {op : RMuOp}
    (hr : RMuInv r) (ht : 0 < op.tag) (h : remutex_replay_state r op = some r1) :
    RMuInv r1 := by
  cases op with
  | lock t =>
    simp only [RMuOp.tag] at ht
    simp only [remutex_replay_state] at h
    unfold nx_sync_remutex_lock at h
    by_cases howner : r.owner_tag = t
    · rw [if_pos howner] at h
      obtain rfl := Option.some_injective _ h.symm
      refine ⟨hr.mirror, ?_⟩
      show r.owner_tag = 0 ↔ r.counter + 1 = 0
      omega
    · rw [if_neg howner] at h
      by_cases hfree : mutex_word r.mutex = 0
      · rw [if_pos hfree] at h
        obtain rfl := Option.some_injective _ h.symm
        constructor
        · show nx_sys_sync_mutex_lock t r.mutex = _
          unfold nx_sys_sync_mutex_lock
          rw [if_pos hfree, hr.mirror]
        · show t = 0 ↔ (1 : Nat) = 0
          omega
      · rw [if_neg hfree] at h
        exact absurd h (by simp)
  | try_lock t =>
    simp only [RMuOp.tag] at ht
    simp only [remutex_replay_state] at h
    unfold nx_sync_remutex_try_lock at h
    by_cases howner : r.owner_tag = t
    · rw [if_pos howner] at h
      obtain rfl := Option.some_injective _ h.symm
      refine ⟨hr.mirror, ?_⟩
      show r.owner_tag = 0 ↔ r.counter + 1 = 0
      omega
    · rw [if_neg howner] at h
      by_cases hfree : mutex_word r.mutex = 0
      · rw [if_pos hfree] at h
        obtain rfl := Option.some_injective _ h.symm
        constructor
        · show nx_sys_sync_mutex_lock t r.mutex = _
          unfold nx_sys_sync_mutex_lock
          rw [if_pos hfree, hr.mirror]
        · show t = 0 ↔ (1 : Nat) = 0
          omega
      · rw [if_neg hfree] at h
        obtain rfl := Option.some_injective _ h.symm
        exact hr
  | unlock t =>
    simp only [RMuOp.tag] at ht
    simp only [remutex_replay_state] at h
    by_cases hg : r.owner_tag = t ∧ 0 < r.counter
    · rw [if_pos hg] at h
      obtain rfl := Option.some_injective _ h.symm
      unfold nx_sync_remutex_unlock
      by_cases hc : 0 < r.counter - 1
      · rw [if_pos hc]
        refine ⟨hr.mirror, ?_⟩
        show r.owner_tag = 0 ↔ r.counter - 1 = 0
        obtain ⟨hg1, hg2⟩ := hg
        omega
      · rw [if_neg hc]
        constructor
        · show nx_sys_sync_mutex_unlock r.mutex = _
          unfold nx_sys_sync_mutex_unlock
          rw [hr.mirror]
          simp
        · show (0 : Nat) = 0 ↔ (0 : Nat) = 0
          exact Iff.rfl
    · rw [if_neg hg] at h
      exact absurd h (by simp)

theorem remutex_count_step {r r1 : ReentrantMutexModel} {op : RMuOp} (t : Nat)
    (hr : RMuInv r) (hop : 0 < op.tag) (ht : 0 < t)
    (h : remutex_replay_state r op = some r1) :
    remutex_lock_delta t r op +
      (if t = r.owner_tag then (r.counter : Int) else 0) =
    (if t = r1.owner_tag then (r1.counter : Int) else 0) := by
  cases op with
  | lock u =>
    simp only [RMuOp.tag] at hop
    simp only [remutex_replay_state] at h
    unfold nx_sync_remutex_lock at h
    unfold remutex_lock_delta
    by_cases howner : r.owner_tag = u
    · rw [if_pos howner] at h
      obtain rfl := Option.some_injective _ h.symm
      simp only []
      by_cases htu : u = t
      · subst htu
        rw [if_pos rfl, if_pos howner.symm, if_pos howner.symm]
        push_cast
        ring
      · rw [if_neg htu, if_neg (by omega), if_neg (by omega)]
        ring
    · rw [if_neg howner] at h
      by_cases hfree : mutex_word r.mutex = 0
      · rw [if_pos hfree] at h
        obtain rfl := Option.some_injective _ h.symm
        have ho : r.owner_tag = 0 := by
          have hm := hr.mirror
          rw [hm] at hfree
          simpa [mutex_word] using hfree
        simp only []
        by_cases htu : u = t
        · subst htu
          rw [if_pos rfl, if_neg (by omega), if_pos rfl]
          ring
        · rw [if_neg htu, if_neg (by omega), if_neg (by omega)]
          ring
      · rw [if_neg hfree] at h
        exact absurd h (by simp)
  | try_lock u =>
    simp only [RMuOp.tag] at hop
    simp only [remutex_replay_state] at h
    unfold nx_sync_remutex_try_lock at h
    unfold remutex_lock_delta
    by_cases howner : r.owner_tag = u
    · rw [if_pos howner] at h
      obtain rfl := Option.some_injective _ h.symm
      simp only []
      by_cases htu : u = t
      · subst htu
        rw [if_pos ⟨rfl, Or.inl howner⟩, if_pos howner.symm, if_pos howner.symm]
        push_cast
        ring
      · rw [if_neg (by tauto), if_neg (by omega), if_neg (by omega)]
        ring
    · rw [if_neg howner] at h
      by_cases hfree : mutex_word r.mutex = 0
      · rw [if_pos hfree] at h
        obtain rfl := Option.some_injective _ h.symm
        have ho : r.owner_tag = 0 := by
          have hm := hr.mirror
          rw [hm] at hfree
          simpa [mutex_word] using hfree
        simp only []
        by_cases htu : u = t
        · subst htu
          rw [if_pos ⟨rfl, Or.inr hfree⟩, if_neg (by omega), if_pos rfl]
          ring
        · rw [if_neg (by tauto), if_neg (by omega), if_neg (by omega)]
          ring
      · rw [if_neg hfree] at h
        obtain rfl := Option.some_injective _ h.symm
        show (if u = t ∧ (r1.owner_tag = u ∨ mutex_word r1.mutex = 0) then (1 : Int) else 0) +
            (if t = r1.owner_tag then (r1.counter : Int) else 0) =
          (if t = r1.owner_tag then (r1.counter : Int) else 0)
        rw [if_neg (show ¬(u = t ∧ (r1.owner_tag = u ∨ mutex_word r1.mutex = 0)) from
          fun hcc => hcc.2.elim howner hfree)]
        ring
  | unlock u =>
    simp only [RMuOp.tag] at hop
    simp only [remutex_replay_state] at h
    unfold remutex_lock_delta
    by_cases hg : r.owner_tag = u ∧ 0 < r.counter
    · rw [if_pos hg] at h
      obtain rfl := Option.some_injective _ h.symm
      obtain ⟨hg1, hg2⟩ := hg
      unfold nx_sync_remutex_unlock
      by_cases hc : 0 < r.counter - 1
      · rw [if_pos hc]
        simp only []
        by_cases htu : u = t
        · subst htu
          rw [if_pos rfl, if_pos hg1.symm, if_pos hg1.symm]
          push_cast
          omega
        · rw [if_neg htu, if_neg (by omega), if_neg (by omega)]
          ring
      · rw [if_neg hc]
        simp only []
        by_cases htu : u = t
        · subst htu
          rw [if_pos rfl, if_pos hg1.symm, if_neg (by omega)]
          push_cast
          omega
        · rw [if_neg htu, if_neg (by omega), if_neg (by omega)]
          ring
    · rw [if_neg hg] at h
      exact absurd h (by simp)

theorem remutex_run_state_inv {ops : List RMuOp} :
    ∀ {r r' : ReentrantMutexModel}, RMuInv r → (∀ op ∈ ops, 0 < op.tag) →
    remutex_run_state r ops = some r' → RMuInv r' := by
  induction ops with
  | nil =>
    intro r r' hr hv h
    simp only [remutex_run_state] at h
    obtain rfl := Option.some_injective _ h.symm
    exact hr
  | cons op ops ih =>
    intro r r' hr hv h
    simp only [remutex_run_state] at h
    cases hrep : remutex_replay_state r op with
    | none => rw [hrep] at h; exact absurd h (by simp)
    | some r1 =>
      rw [hrep] at h
      exact ih (remutex_replay_state_inv hr (hv op (List.mem_cons_self op ops)) hrep)
        (fun o ho => hv o (List.mem_cons_of_mem op ho)) h

theorem remutex_run_count {ops : List RMuOp} (t : Nat) (ht : 0 < t) :
    ∀ {r r' : ReentrantMutexModel}, RMuInv r → (∀ op ∈ ops, 0 < op.tag) →
    remutex_run_state r ops = some r' →
    remutex_unmatched_count t r ops +
      (if t = r.owner_tag then (r.counter : Int) else 0) =
    (if t = r'.owner_tag then (r'.counter : Int) else 0) := by
  induction ops with
  | nil =>
    intro r r' hr hv h
    simp only [remutex_run_state] at h
    obtain rfl := Option.some_injective _ h.symm
    simp [remutex_unmatched_count]
  | cons op ops ih =>
    intro r r' hr hv h
    simp only [remutex_run_state] at h
    cases hrep : remutex_replay_state r op with
    | none => rw [hrep] at h; exact absurd h (by simp)
    | some r1 =>
      rw [hrep] at h
      have hstep := remutex_count_step t hr (hv op (List.mem_cons_self op ops)) ht hrep
      have hrest := ih (remutex_replay_state_inv hr (hv op (List.mem_cons_self op ops)) hrep)
        (fun o ho => hv o (List.mem_cons_of_mem op ho)) h
      simp only [remutex_unmatched_count, hrep]
      omega

/-- C5: over every trace of remutex calls that respects the usage contract,
the `counter` equals the number of unmatched lock calls by the thread
recorded in `owner_tag` (and every other thread has no unmatched locks);
the inner mutex is unlocked exactly when the counter is 0; an `unlock` call
completes only for the current owner and decrements the counter by one; and
once the counter has returned to 0 another thread's pending `lock`
immediately succeeds, taking ownership with counter 1. -/
theorem remutex_counter_matches_unmatched_locks (ops : List RMuOp)
    (r' : ReentrantMutexModel) (t : Nat)
    (hv : ∀ op ∈ ops, 0 < op.tag) (ht : 0 < t)
    (h : remutex_run_state nx_sync_remutex_init ops = some r') :
    (remutex_unmatched_count t nx_sync_remutex_init ops =
      if t = r'.owner_tag then (r'.counter : Int) else 0) ∧
    (mutex_word r'.mutex = 0 ↔ r'.counter = 0) ∧
    ((remutex_replay_state r' (RMuOp.unlock t)).isSome = true →
      r'.owner_tag = t ∧
      Option.map ReentrantMutexModel.counter
        (remutex_replay_state r' (RMuOp.unlock t)) = some (r'.counter - 1)) ∧
    (r'.counter = 0 →
      nx_sync_remutex_lock t r' = some ⟨⟨t, false, []⟩, t, 1⟩) := by
  have hinv : RMuInv r' := remutex_run_state_inv rMuInv_init hv h
  have hword : mutex_word r'.mutex = r'.owner_tag := by
    rw [hinv.mirror]
    simp [mutex_word]
  refine ⟨?_, ?_, ?_, ?_⟩
  · have := remutex_run_count t ht rMuInv_init hv h
    simpa [nx_sync_remutex_init, if_neg (by omega : ¬t = 0)] using this
  · rw [hword]
    exact hinv.zero_iff
  · intro hsome
    simp only [remutex_replay_state] at hsome ⊢
    by_cases hg : r'.owner_tag = t ∧ 0 < r'.counter
    · rw [if_pos hg]
      refine ⟨hg.1, ?_⟩
      unfold nx_sync_remutex_unlock
      by_cases hc : 0 < r'.counter - 1
      · rw [if_pos hc]
        simp
      · rw [if_neg hc]
        obtain ⟨hg1, hg2⟩ := hg
        have hcz : r'.counter - 1 = 0 := by omega
        simp [hcz]
    · rw [if_neg hg] at hsome
      exact absurd hsome (by simp)
  · intro hc
    have ho : r'.owner_tag = 0 := hinv.zero_iff.mpr hc
    unfold nx_sync_remutex_lock
    rw [if_neg (by omega), if_pos (by rw [hword, ho])]
    rw [hinv.mirror, ho]
    rfl

/-- Witness for C5: the single-thread reentrancy schedule of test_0006
(thread 5 locks three times, thread 9's try_lock fails while the lock is
held, thread 5 unlocks three times, then thread 9's lock succeeds),
instantiated for thread 9. -/
theorem remutex_counter_matches_unmatched_locks_witness :
    (remutex_unmatched_count 9 nx_sync_remutex_init
        [RMuOp.lock 5, RMuOp.lock 5, RMuOp.lock 5, RMuOp.try_lock 9,
          RMuOp.unlock 5, RMuOp.unlock 5, RMuOp.unlock 5, RMuOp.lock 9] =
      if 9 = (⟨⟨9, false, []⟩, 9, 1⟩ : ReentrantMutexModel).owner_tag
      then ((⟨⟨9, false, []⟩, 9, 1⟩ : ReentrantMutexModel).counter : Int) else 0) ∧
    (mutex_word (⟨⟨9, false, []⟩, 9, 1⟩ : ReentrantMutexModel).mutex = 0 ↔
      (⟨⟨9, false, []⟩, 9, 1⟩ : ReentrantMutexModel).counter = 0) ∧
    ((remutex_replay_state ⟨⟨9, false, []⟩, 9, 1⟩ (RMuOp.unlock 9)).isSome = true →
      (⟨⟨9, false, []⟩, 9, 1⟩ : ReentrantMutexModel).owner_tag = 9 ∧
      Option.map ReentrantMutexModel.counter
        (remutex_replay_state ⟨⟨9, false, []⟩, 9, 1⟩ (RMuOp.unlock 9)) =
        some ((⟨⟨9, false, []⟩, 9, 1⟩ : ReentrantMutexModel).counter - 1)) ∧
    ((⟨⟨9, false, []⟩, 9, 1⟩ : ReentrantMutexModel).counter = 0 →
      nx_sync_remutex_lock 9 ⟨⟨9, false, []⟩, 9, 1⟩ = some ⟨⟨9, false, []⟩, 9, 1⟩) :=
  remutex_counter_matches_unmatched_locks
    [RMuOp.lock 5, RMuOp.lock 5, RMuOp.lock 5, RMuOp.try_lock 9,
      RMuOp.unlock 5, RMuOp.unlock 5, RMuOp.unlock 5, RMuOp.lock 9]
    ⟨⟨9, false, []⟩, 9, 1⟩ 9 (by decide) (by norm_num) (by decide)

/-- Modelled from the spec: the scalar fields of a read/write lock
(`nx_sys_sync_rwlock.h`).  Every access to these fields happens under the
inner mutex, so each rwlock operation is modelled as an atomic transition
on this record; the inner mutex and the two condvars are realized by the
transition structure (waiting threads are accounted for in the two waiter
counters exactly as the algorithm maintains them). -/
structure RwLockModel where
  read_lock_count : Nat
  read_waiter_count : Nat
  write_lock_count : Nat
  write_waiter_count : Nat
  write_owner_tag : Nat
  deriving DecidableEq, Repr

/-- Modelled from the spec: `init(rw)` clears every field. -/
def nx_sys_sync_rwlock_init : RwLockModel := ⟨0, 0, 0, 0, 0⟩

/-- Transition labels of the rwlock protocol, tagged with the calling
thread: completing a read/write acquisition (normal or reentrant), entering
or leaving a wait on one of the two condvars, and releasing. -/
inductive RwLabel where
  | read_acquire : Nat → RwLabel
  | read_reentrant : Nat → RwLabel
  | read_begin_wait : Nat → RwLabel
  | read_end_wait : Nat → RwLabel
  | read_release : Nat → RwLabel
  | write_acquire : Nat → RwLabel
  | write_reentrant : Nat → RwLabel
  | write_begin_wait : Nat → RwLabel
  | write_end_wait : Nat → RwLabel
  | write_release : Nat → RwLabel
  deriving DecidableEq, Repr

/-- Modelled from the spec (4.4): one atomic rwlock transition, performed
under the inner mutex.  `read_acquire` is the exit of `read_lock`'s while
loop (possible only when no writer holds or waits), `read_reentrant` is the
write-owner fast path, `write_acquire` is the exit of `write_lock`'s while
loop, `write_release` clears the owner tag when the last write lock is
dropped, and the `begin/end_wait` labels bracket a condvar wait of the
respective class. -/
inductive RwStep : RwLockModel → RwLabel → RwLockModel → Prop where
  | read_reentrant : ∀ (s : RwLockModel) (t : Nat), 0 < t →
      s.write_owner_tag = t →
      RwStep s (.read_reentrant t) { s with read_lock_count := s.read_lock_count + 1 }
  | read_acquire : ∀ (s : RwLockModel) (t : Nat), 0 < t →
      s.write_owner_tag ≠ t → s.write_lock_count = 0 → s.write_waiter_count = 0 →
      RwStep s (.read_acquire t) { s with read_lock_count := s.read_lock_count + 1 }
  | read_begin_wait : ∀ (s : RwLockModel) (t : Nat), 0 < t →
      s.write_owner_tag ≠ t →
      (0 < s.write_lock_count ∨ 0 < s.write_waiter_count) →
      RwStep s (.read_begin_wait t)
        { s with read_waiter_count := s.read_waiter_count + 1 }
  | read_end_wait : ∀ (s : RwLockModel) (t : Nat), 0 < t →
      0 < s.read_waiter_count →
      RwStep s (.read_end_wait t)
        { s with read_waiter_count := s.read_waiter_count - 1 }
  | read_release : ∀ (s : RwLockModel) (t : Nat), 0 < t →
      0 < s.read_lock_count →
      RwStep s (.read_release t)
        { s with read_lock_count := s.read_lock_count - 1 }
  | write_reentrant : ∀ (s : RwLockModel) (t : Nat), 0 < t →
      s.write_owner_tag = t →
      RwStep s (.write_reentrant t)
        { s with write_lock_count := s.write_lock_count + 1 }
  | write_acquire : ∀ (s : RwLockModel) (t : Nat), 0 < t →
      s.read_lock_count = 0 → s.write_lock_count = 0 →
      RwStep s (.write_acquire t)
        { s with write_owner_tag := t, write_lock_count := 1 }
  | write_begin_wait : ∀ (s : RwLockModel) (t : Nat), 0 < t →
      s.write_owner_tag ≠ t →
      (0 < s.read_lock_count ∨ 0 < s.write_lock_count) →
      RwStep s (.write_begin_wait t)
        { s with write_waiter_count := s.write_waiter_count + 1 }
  | write_end_wait : ∀ (s : RwLockModel) (t : Nat), 0 < t →
      0 < s.write_waiter_count →
      RwStep s (.write_end_wait t)
        { s with write_waiter_count := s.write_waiter_count - 1 }
  | write_release : ∀ (s : RwLockModel) (t : Nat), 0 < t →
      s.write_owner_tag = t → 0 < s.write_lock_count →
      RwStep s (.write_release t)
        (if s.write_lock_count - 1 = 0
          then { s with write_lock_count := 0, write_owner_tag := 0 }
          else { s with write_lock_count := s.write_lock_count - 1 })

/-- Some rwlock transition with any label. -/
def RwStepAny (s s' : RwLockModel) : Prop := ∃ l, RwStep s l s'

/-- States of the rwlock protocol reachable from a freshly initialized
lock. -/
def RwReachable (s : RwLockModel) : Prop :=
  Relation.ReflTransGen RwStepAny nx_sys_sync_rwlock_init s

/-- Modelled from the spec: `is_write_lock_held_by_current_thread(rw)` is
`write_owner_tag == self_tag && write_lock_count > 0`. -/
def nx_sys_sync_rwlock_is_write_lock_held_by_current_thread
    (t : Nat) (s : RwLockModel) : Bool :=
  s.write_owner_tag == t && decide (0 < s.write_lock_count)

/-- Modelled from the spec: `is_owned_by_current_thread(rw)` answers "holds
the write lock, or holds read locks acquired while it held the write lock";
since readers are anonymous the implementation can only compare the
recorded `write_owner_tag` against the caller's tag. -/
def nx_sys_sync_rwlock_is_owned_by_current_thread (t : Nat) (s : RwLockModel) : Bool :=
  s.write_owner_tag == t

theorem rwlock_owner_iff_count {s s' : RwLockModel} {l : RwLabel}
    (h : RwStep s l s') (hs : s.write_owner_tag = 0 ↔ s.write_lock_count = 0) :
    s'.write_owner_tag = 0 ↔ s'.write_lock_count = 0 := by
  cases h with
  | read_reentrant t ht ho => exact hs
  | read_acquire t ht ho h1 h2 => exact hs
  | read_begin_wait t ht ho hg => exact hs
  | read_end_wait t ht hg => exact hs
  | read_release t ht hg => exact hs
  | write_reentrant t ht ho =>
    show s.write_owner_tag = 0 ↔ s.write_lock_count + 1 = 0
    omega
  | write_acquire t ht h1 h2 =>
    show t = 0 ↔ (1 : Nat) = 0
    omega
  | write_begin_wait t ht ho hg => exact hs
  | write_end_wait t ht hg => exact hs
  | write_release t ht ho hg =>
    by_cases hz : s.write_lock_count - 1 = 0
    · rw [if_pos hz]
    · rw [if_neg hz]
      show s.write_owner_tag = 0 ↔ s.write_lock_count - 1 = 0
      omega

theorem rwlock_owner_iff_count_reachable {s : RwLockModel} (h : RwReachable s) :
    s.write_owner_tag = 0 ↔ s.write_lock_count = 0 := by
  induction h with
  | refl => simp [nx_sys_sync_rwlock_init]
  | tail _ hstep ih =>
    obtain ⟨l, hl⟩ := hstep
    exact rwlock_owner_iff_count hl ih

/-- C6: a reader that is not the current write owner never completes
`read_lock` while a writer holds the lock or is already waiting: every
`read_acquire` transition has a non-owner caller and both
`write_lock_count = 0` and `write_waiter_count = 0` in its pre-state.  The
reentrant path for the thread recorded in `write_owner_tag` is exempt: it
is enabled immediately, even while writers hold the lock or wait. -/
theorem rwlock_reader_cannot_pass_waiting_writer (s s' : RwLockModel)
    (l : RwLabel) (t : Nat) (h : RwStep s l s') :
    (l = RwLabel.read_acquire t →
      s.write_owner_tag ≠ t ∧ s.write_lock_count = 0 ∧ s.write_waiter_count = 0) ∧
    (s.write_owner_tag = t → 0 < t →
      RwStep s (RwLabel.read_reentrant t)
        { s with read_lock_count := s.read_lock_count + 1 }) := by
  constructor
  · intro hl
    cases h with
    | read_reentrant u hu ho => simp at hl
    | read_acquire u hu ho h1 h2 =>
      injection hl with he
      subst he
      exact ⟨ho, h1, h2⟩
    | read_begin_wait u hu ho hg => simp at hl
    | read_end_wait u hu hg => simp at hl
    | read_release u hu hg => simp at hl
    | write_reentrant u hu ho => simp at hl
    | write_acquire u hu h1 h2 => simp at hl
    | write_begin_wait u hu ho hg => simp at hl
    | write_end_wait u hu hg => simp at hl
    | write_release u hu ho hg => simp at hl
  · intro ho ht
    exact RwStep.read_reentrant s t ht ho

/-- Witness for C6: thread 5 holds the write lock once and takes a
reentrant read lock. -/
theorem rwlock_reader_cannot_pass_waiting_writer_witness :
    ((RwLabel.read_reentrant 5 : RwLabel) = RwLabel.read_acquire 5 →
      (⟨0, 0, 1, 0, 5⟩ : RwLockModel).write_owner_tag ≠ 5 ∧
      (⟨0, 0, 1, 0, 5⟩ : RwLockModel).write_lock_count = 0 ∧
      (⟨0, 0, 1, 0, 5⟩ : RwLockModel).write_waiter_count = 0) ∧
    ((⟨0, 0, 1, 0, 5⟩ : RwLockModel).write_owner_tag = 5 → 0 < 5 →
      RwStep ⟨0, 0, 1, 0, 5⟩ (RwLabel.read_reentrant 5)
        { (⟨0, 0, 1, 0, 5⟩ : RwLockModel) with
            read_lock_count := (⟨0, 0, 1, 0, 5⟩ : RwLockModel).read_lock_count + 1 }) :=
  rwlock_reader_cannot_pass_waiting_writer ⟨0, 0, 1, 0, 5⟩ ⟨1, 0, 1, 0, 5⟩
    (RwLabel.read_reentrant 5) 5
    (RwStep.read_reentrant ⟨0, 0, 1, 0, 5⟩ 5 (by norm_num) rfl)

/-- C7: in every reachable rwlock state, `is_owned_by_current_thread`
returns the same boolean as `is_write_lock_held_by_current_thread`
(`write_owner_tag == self_tag` and `write_lock_count > 0`), regardless of
any read locks held. -/
theorem rwlock_is_owned_iff_write_lock_held (s : RwLockModel) (t : Nat)
    (hs : RwReachable s) (ht : 0 < t) :
    nx_sys_sync_rwlock_is_owned_by_current_thread t s =
      nx_sys_sync_rwlock_is_write_lock_held_by_current_thread t s := by
  have hiff := rwlock_owner_iff_count_reachable hs
  unfold nx_sys_sync_rwlock_is_owned_by_current_thread
    nx_sys_sync_rwlock_is_write_lock_held_by_current_thread
  by_cases ho : s.write_owner_tag = t
  · have hc : 0 < s.write_lock_count := by omega
    simp [beq_iff_eq, ho, hc]
  · simp [beq_iff_eq, ho]

/-- Witness for C7 at the reachable state where thread 5 holds the write
lock. -/
theorem rwlock_is_owned_iff_write_lock_held_witness :
    nx_sys_sync_rwlock_is_owned_by_current_thread 5 ⟨0, 0, 1, 0, 5⟩ =
      nx_sys_sync_rwlock_is_write_lock_held_by_current_thread 5 ⟨0, 0, 1, 0, 5⟩ :=
  rwlock_is_owned_iff_write_lock_held ⟨0, 0, 1, 0, 5⟩ 5
    (Relation.ReflTransGen.tail Relation.ReflTransGen.refl
      ⟨RwLabel.write_acquire 5,
        RwStep.write_acquire nx_sys_sync_rwlock_init 5 (by norm_num) rfl rfl⟩)
    (by norm_num)

/-- Modelled from the spec: a barrier is a mutex, a condvar, a `count` and
a fixed `total` (`nx_sys_sync_barrier.h`).  The mutex serializes arrivals,
so `wait` is one atomic step on this record; `parked` counts the threads
blocked on the condvar inside `wait` and `released` the threads that have
returned from `wait`. -/
structure BarrierModel where
  count : Nat
  total : Nat
  parked : Nat
  released : Nat
  deriving DecidableEq, Repr

/-- Modelled from the spec: `init(b, N)` sets `count = N` and
`total = N`. -/
def nx_sys_sync_barrier_init (n : Nat) : BarrierModel := ⟨n, n, 0, 0⟩

/-- Modelled from the spec: `wait(b)`: under the mutex, decrement `count`;
if it reaches 0 reset `count = total` and wake all parked threads (they and
the arriving thread return from `wait`), otherwise park on the condvar
until a new cycle begins. -/
def nx_sys_sync_barrier_wait (b : BarrierModel) : BarrierModel :=
  if b.count - 1 = 0 then
    ⟨b.total, b.total, 0, b.released + b.parked + 1⟩
  else
    ⟨b.count - 1, b.total, b.parked + 1, b.released⟩

/-- Runs `k` successive arrivals at the barrier. -/
def barrier_run (k : Nat) (b : BarrierModel) : BarrierModel :=
  match k with
  | 0 => b
  | j + 1 => nx_sys_sync_barrier_wait (barrier_run j b)

theorem barrier_run_lt (n : Nat) :
    ∀ k, k < n → barrier_run k (nx_sys_sync_barrier_init n) = ⟨n - k, n, k, 0⟩ := by
  intro k
  induction k with
  | zero =>
    intro _
    simp [barrier_run, nx_sys_sync_barrier_init]
  | succ j ih =>
    intro hk
    have hj : j < n := by omega
    unfold barrier_run
    rw [ih hj]
    unfold nx_sys_sync_barrier_wait
    rw [if_neg (by simp only []; omega)]
    simp only []
    congr 1
    all_goals omega

/-- C8: for every `N >= 1`, after `N` calls to `wait` on a barrier
initialized with `init(b, N)` every one of the `N` threads has returned
(none is parked) and `count` is back to `total = N`; before the `N`-th
arrival no thread has returned (`k` arrivals leave `count = N - k` with `k`
threads parked), so it is the `N`-th arrival that resets the count and
wakes all waiters; and no `wait` call ever changes `total`. -/
theorem barrier_n_waits_release_all (n : Nat) (hn : 1 ≤ n) :
    barrier_run n (nx_sys_sync_barrier_init n) = ⟨n, n, 0, n⟩ ∧
    (∀ k, k < n → barrier_run k (nx_sys_sync_barrier_init n) = ⟨n - k, n, k, 0⟩) ∧
    (∀ b : BarrierModel, (nx_sys_sync_barrier_wait b).total = b.total) := by
  refine ⟨?_, barrier_run_lt n, ?_⟩
  · obtain ⟨m, rfl⟩ : ∃ m, n = m + 1 := ⟨n - 1, by omega⟩
    unfold barrier_run
    rw [barrier_run_lt (m + 1) m (by omega)]
    unfold nx_sys_sync_barrier_wait
    rw [if_pos (by simp only []; omega)]
    simp only []
    congr 1
    all_goals omega
  · intro b
    unfold nx_sys_sync_barrier_wait
    by_cases hb : b.count - 1 = 0
    · rw [if_pos hb]
    · rw [if_neg hb]

/-- Witness for C8 with N = 3. -/
theorem barrier_n_waits_release_all_witness :
    barrier_run 3 (nx_sys_sync_barrier_init 3) = ⟨3, 3, 0, 3⟩ ∧
    (∀ k, k < 3 → barrier_run k (nx_sys_sync_barrier_init 3) = ⟨3 - k, 3, k, 0⟩) ∧
    (∀ b : BarrierModel, (nx_sys_sync_barrier_wait b).total = b.total) :=
  barrier_n_waits_release_all 3 (by norm_num)

/-- Modelled from the spec: the logical payload state of a one-shot
channel.  The abstract states `SenderDropped` and `ReceiverDropped` of the
spec's state machine are represented by `empty`/`value` together with the
alive flags, matching the operational descriptions of `send`, `recv` and
the `free` operations.  Values (C `void*`) are modelled as naturals. -/
inductive OneshotPayload where
  | empty : OneshotPayload
  | value : Nat → OneshotPayload
  | consumed : OneshotPayload
  deriving DecidableEq, Repr

/-- Modelled from the spec: the shared inner state of a one-shot channel
(`state`, `sender_alive`, `receiver_alive` under the channel's mutex and
condvar), together with whether each opaque half handle has already been
consumed by `send`/`recv` or freed.  Every operation runs under the inner
mutex, so each is one atomic step. -/
structure OneshotChannel where
  state : OneshotPayload
  sender_alive : Bool
  receiver_alive : Bool
  sender_consumed : Bool
  receiver_consumed : Bool
  deriving DecidableEq, Repr

/-- Modelled from the spec: `create` allocates
`{ state = Empty, sender_alive = true, receiver_alive = true }` and hands
out the two fresh halves. -/
def nx_std_sync_oneshot_create : OneshotChannel := ⟨.empty, true, true, false, false⟩

/-- Modelled from the spec: `send(sender, v)` always consumes the sender
handle; if the receiver has been freed it returns `-1` and the value is
discarded (the channel state is otherwise unchanged); otherwise it stores
`Value(v)`, marks the sender dead, wakes the receiver, and returns `0`. -/
def nx_std_sync_oneshot_send (v : Nat) (c : OneshotChannel) : Int × OneshotChannel :=
  if c.receiver_alive = false then
    (-1, { c with sender_consumed := true })
  else
    (0, { c with state := .value v, sender_alive := false, sender_consumed := true })

/-- Modelled from the spec: one evaluation of `recv`'s wait loop at the
point it can complete, consuming the receiver handle: with a stored value
it returns `(0, v)` and the state becomes `Consumed`; with the sender gone
and no value it returns `-1` (state otherwise unchanged); otherwise the
receiver parks on the condvar (`none`). -/
def nx_std_sync_oneshot_recv (c : OneshotChannel) : Option (Int × Nat × OneshotChannel) :=
  match c.state with
  | .value v =>
    some (0, v,
      { c with state := .consumed, receiver_alive := false, receiver_consumed := true })
  | .empty =>
    if c.sender_alive = false then some (-1, 0, { c with receiver_consumed := true })
    else none
  | .consumed => none

/-- Modelled from the spec: `sender_free` (drop without send) marks the
sender dead and wakes a blocked receiver; the handle is gone. -/
def nx_std_sync_oneshot_sender_free (c : OneshotChannel) : OneshotChannel :=
  { c with sender_alive := false, sender_consumed := true }

/-- Modelled from the spec: `receiver_free` (drop without recv) marks the
receiver dead; the handle is gone. -/
def nx_std_sync_oneshot_receiver_free (c : OneshotChannel) : OneshotChannel :=
  { c with receiver_alive := false, receiver_consumed := true }

/-- Labels of completed one-shot operations. -/
inductive OneshotLabel where
  | send_ok : Nat → OneshotLabel
  | send_fail : OneshotLabel
  | recv_ok : Nat → OneshotLabel
  | recv_fail : OneshotLabel
  | sender_free : OneshotLabel
  | receiver_free : OneshotLabel
  deriving DecidableEq, Repr

/-- One completed one-shot operation.  `send` and `recv` require the
respective handle to be unconsumed (each half is an owned handle that the
call takes over), and the labels record the returned result code. -/
inductive OneshotStep : OneshotChannel → OneshotLabel → OneshotChannel → Prop where
  | send_ok : ∀ (c : OneshotChannel) (v : Nat), c.sender_consumed = false →
      (nx_std_sync_oneshot_send v c).1 = 0 →
      OneshotStep c (.send_ok v) (nx_std_sync_oneshot_send v c).2
  | send_fail : ∀ (c : OneshotChannel) (v : Nat), c.sender_consumed = false →
      (nx_std_sync_oneshot_send v c).1 = -1 →
      OneshotStep c .send_fail (nx_std_sync_oneshot_send v c).2
  | recv_ok : ∀ (c out : OneshotChannel) (v : Nat), c.receiver_consumed = false →
      nx_std_sync_oneshot_recv c = some (0, v, out) →
      OneshotStep c (.recv_ok v) out
  | recv_fail : ∀ (c out : OneshotChannel) (v : Nat), c.receiver_consumed = false →
      nx_std_sync_oneshot_recv c = some (-1, v, out) →
      OneshotStep c .recv_fail out
  | sender_free : ∀ (c : OneshotChannel), c.sender_consumed = false →
      OneshotStep c .sender_free (nx_std_sync_oneshot_sender_free c)
  | receiver_free : ∀ (c : OneshotChannel), c.receiver_consumed = false →
      OneshotStep c .receiver_free (nx_std_sync_oneshot_receiver_free c)

/-- A finite trace of completed one-shot operations. -/
inductive OneshotTrace : OneshotChannel → List OneshotLabel → OneshotChannel → Prop where
  | nil : ∀ (c : OneshotChannel), OneshotTrace c [] c
  | cons : ∀ (c c1 c2 : OneshotChannel) (l : OneshotLabel) (ls : List OneshotLabel),
      OneshotStep c l c1 → OneshotTrace c1 ls c2 → OneshotTrace c (l :: ls) c2

/-- Number of successful sends recorded in a trace. -/
def oneshot_send_successes : List OneshotLabel → Nat
  | [] => 0
  | l :: ls =>
    (match l with | .send_ok _ => 1 | _ => 0) + oneshot_send_successes ls

/-- Number of successful receives recorded in a trace. -/
def oneshot_recv_successes : List OneshotLabel → Nat
  | [] => 0
  | l :: ls =>
    (match l with | .recv_ok _ => 1 | _ => 0) + oneshot_recv_successes ls

theorem oneshot_recv_fields {c out : OneshotChannel} {r : Int} {v : Nat}
    (h : nx_std_sync_oneshot_recv c = some (r, v, out)) :
    out.sender_consumed = c.sender_consumed ∧ out.receiver_consumed = true := by
  unfold nx_std_sync_oneshot_recv at h
  cases hs : c.state with
  | empty =>
    rw [hs] at h
    by_cases ha : c.sender_alive = false
    · rw [if_pos ha] at h
      simp only [Option.some.injEq, Prod.mk.injEq] at h
      obtain ⟨h1, h2, h3⟩ := h
      rw [← h3]
      exact ⟨rfl, rfl⟩
    · rw [if_neg ha] at h
      exact absurd h (by simp)
  | value w =>
    rw [hs] at h
    simp only [Option.some.injEq, Prod.mk.injEq] at h
    obtain ⟨h1, h2, h3⟩ := h
    rw [← h3]
    exact ⟨rfl, rfl⟩
  | consumed =>
    rw [hs] at h
    exact absurd h (by simp)

theorem oneshot_send_fields (v : Nat) (c : OneshotChannel) :
    (nx_std_sync_oneshot_send v c).2.sender_consumed = true ∧
    (nx_std_sync_oneshot_send v c).2.receiver_consumed = c.receiver_consumed := by
  unfold nx_std_sync_oneshot_send
  by_cases hra : c.receiver_alive = false
  · rw [if_pos hra]
    exact ⟨rfl, rfl⟩
  · rw [if_neg hra]
    exact ⟨rfl, rfl⟩

theorem oneshotStep_consumed_mono {c c' : OneshotChannel} {l : OneshotLabel}
    (h : OneshotStep c l c') :
    (c.sender_consumed = true → c'.sender_consumed = true) ∧
    (c.receiver_consumed = true → c'.receiver_consumed = true) := by
  cases h with
  | send_ok v hc hr =>
    refine ⟨fun _ => (oneshot_send_fields v c).1, fun hx => ?_⟩
    rw [(oneshot_send_fields v c).2]
    exact hx
  | send_fail v hc hr =>
    refine ⟨fun _ => (oneshot_send_fields v c).1, fun hx => ?_⟩
    rw [(oneshot_send_fields v c).2]
    exact hx
  | recv_ok out v hrc heq =>
    refine ⟨fun hx => ?_, fun _ => (oneshot_recv_fields heq).2⟩
    rw [(oneshot_recv_fields heq).1]
    exact hx
  | recv_fail out v hrc heq =>
    refine ⟨fun hx => ?_, fun _ => (oneshot_recv_fields heq).2⟩
    rw [(oneshot_recv_fields heq).1]
    exact hx
  | sender_free hc => exact ⟨fun _ => rfl, fun hx => hx⟩
  | receiver_free hc => exact ⟨fun hx => hx, fun _ => rfl⟩

theorem oneshot_sends_zero_of_consumed {c c2 : OneshotChannel} {ls : List OneshotLabel}
    (h : OneshotTrace c ls c2) : c.sender_consumed = true →
    oneshot_send_successes ls = 0 := by
  induction h with
  | nil c => intro _; rfl
  | cons c c1 c2 l ls hstep htr ih =>
    intro hc
    have h1 := (oneshotStep_consumed_mono hstep).1 hc
    cases l with
    | send_ok v =>
      cases hstep with
      | send_ok v hc' hr => rw [hc] at hc'; exact absurd hc' (by simp)
    | send_fail => simpa [oneshot_send_successes] using ih h1
    | recv_ok v => simpa [oneshot_send_successes] using ih h1
    | recv_fail => simpa [oneshot_send_successes] using ih h1
    | sender_free => simpa [oneshot_send_successes] using ih h1
    | receiver_free => simpa [oneshot_send_successes] using ih h1

theorem oneshot_recvs_zero_of_consumed {c c2 : OneshotChannel} {ls : List OneshotLabel}
    (h : OneshotTrace c ls c2) : c.receiver_consumed = true →
    oneshot_recv_successes ls = 0 := by
  induction h with
  | nil c => intro _; rfl
  | cons c c1 c2 l ls hstep htr ih =>
    intro hc
    have h1 := (oneshotStep_consumed_mono hstep).2 hc
    cases l with
    | recv_ok v =>
      cases hstep with
      | recv_ok out v hrc heq => rw [hc] at hrc; exact absurd hrc (by simp)
    | send_ok v => simpa [oneshot_recv_successes] using ih h1
    | send_fail => simpa [oneshot_recv_successes] using ih h1
    | recv_fail => simpa [oneshot_recv_successes] using ih h1
    | sender_free => simpa [oneshot_recv_successes] using ih h1
    | receiver_free => simpa [oneshot_recv_successes] using ih h1

theorem oneshot_sends_le_one {c c2 : OneshotChannel} {ls : List OneshotLabel}
    (h : OneshotTrace c ls c2) : oneshot_send_successes ls ≤ 1 := by
  induction h with
  | nil c => simp [oneshot_send_successes]
  | cons c c1 c2 l ls hstep htr ih =>
    cases l with
    | send_ok v =>
      have h1 : c1.sender_consumed = true := by
        cases hstep with
        | send_ok v hc hr => exact (oneshot_send_fields v c).1
      have h0 := oneshot_sends_zero_of_consumed htr h1
      simp [oneshot_send_successes, h0]
    | send_fail => simpa [oneshot_send_successes] using ih
    | recv_ok v => simpa [oneshot_send_successes] using ih
    | recv_fail => simpa [oneshot_send_successes] using ih
    | sender_free => simpa [oneshot_send_successes] using ih
    | receiver_free => simpa [oneshot_send_successes] using ih

theorem oneshot_recvs_le_one {c c2 : OneshotChannel} {ls : List OneshotLabel}
    (h : OneshotTrace c ls c2) : oneshot_recv_successes ls ≤ 1 := by
  induction h with
  | nil c => simp [oneshot_recv_successes]
  | cons c c1 c2 l ls hstep htr ih =>
    cases l with
    | recv_ok v =>
      have h1 : c1.receiver_consumed = true := by
        cases hstep with
        | recv_ok out v hrc heq => exact (oneshot_recv_fields heq).2
      have h0 := oneshot_recvs_zero_of_consumed htr h1
      simp [oneshot_recv_successes, h0]
    | send_ok v => simpa [oneshot_recv_successes] using ih
    | send_fail => simpa [oneshot_recv_successes] using ih
    | recv_fail => simpa [oneshot_recv_successes] using ih
    | sender_free => simpa [oneshot_recv_successes] using ih
    | receiver_free => simpa [oneshot_recv_successes] using ih

/-- C9: one-shot disconnect handling.  `send` on a channel whose receiver
has been freed returns -1, discards the value (the inner state is
unchanged, only the sender handle is consumed); `recv` on a channel whose
sender has been freed without sending returns -1, consuming the receiver
handle and leaving the state otherwise unchanged — and this covers a recv
already blocked at the time of the free, because while the sender is alive
with no value the receiver parks (`recv` cannot complete) and re-checks the
same exit condition after the free's wake. -/
theorem oneshot_disconnect_returns_failure (c d e : OneshotChannel) (v : Nat)
    (hc : c.receiver_alive = false)
    (hd1 : d.sender_alive = false) (hd2 : d.state = OneshotPayload.empty)
    (he1 : e.state = OneshotPayload.empty) (he2 : e.sender_alive = true) :
    ((nx_std_sync_oneshot_send v c).1 = -1 ∧
      (nx_std_sync_oneshot_send v c).2 = { c with sender_consumed := true }) ∧
    (nx_std_sync_oneshot_recv d =
      some (-1, 0, { d with receiver_consumed := true })) ∧
    nx_std_sync_oneshot_recv e = none := by
  refine ⟨?_, ?_, ?_⟩
  · unfold nx_std_sync_oneshot_send
    rw [if_pos hc]
    exact ⟨rfl, rfl⟩
  · unfold nx_std_sync_oneshot_recv
    rw [hd2]
    simp [hd1]
  · unfold nx_std_sync_oneshot_recv
    rw [he1]
    simp [he2]

/-- Witness for C9: a channel whose receiver was freed, a channel whose
sender was freed without sending, and a fresh channel on which recv
blocks. -/
theorem oneshot_disconnect_returns_failure_witness :
    ((nx_std_sync_oneshot_send 7 ⟨OneshotPayload.empty, true, false, false, true⟩).1 = -1 ∧
      (nx_std_sync_oneshot_send 7 ⟨OneshotPayload.empty, true, false, false, true⟩).2 =
        ⟨OneshotPayload.empty, true, false, true, true⟩) ∧
    (nx_std_sync_oneshot_recv ⟨OneshotPayload.empty, false, true, true, false⟩ =
      some (-1, 0, ⟨OneshotPayload.empty, false, true, true, true⟩)) ∧
    nx_std_sync_oneshot_recv ⟨OneshotPayload.empty, true, true, false, false⟩ = none :=
  oneshot_disconnect_returns_failure
    ⟨OneshotPayload.empty, true, false, false, true⟩
    ⟨OneshotPayload.empty, false, true, true, false⟩
    ⟨OneshotPayload.empty, true, true, false, false⟩ 7
    rfl rfl rfl rfl rfl

/-- C10: a `send(v)` while the receiver is alive returns 0 and stores
exactly `Value(v)`; a `recv` completing on that state returns 0 with the
received value equal to the sent `v`; and along every trace of completed
one-shot operations from `create`, at most one send and at most one recv
succeed (each half handle is consumed by its first use). -/
theorem oneshot_send_recv_single_use (c c2 : OneshotChannel) (v : Nat)
    (ls : List OneshotLabel) (hra : c.receiver_alive = true)
    (htr : OneshotTrace nx_std_sync_oneshot_create ls c2) :
    (nx_std_sync_oneshot_send v c).1 = 0 ∧
    (nx_std_sync_oneshot_send v c).2.state = OneshotPayload.value v ∧
    nx_std_sync_oneshot_recv (nx_std_sync_oneshot_send v c).2 =
      some (0, v, { (nx_std_sync_oneshot_send v c).2 with
        state := OneshotPayload.consumed, receiver_alive := false,
        receiver_consumed := true }) ∧
    oneshot_send_successes ls ≤ 1 ∧ oneshot_recv_successes ls ≤ 1 := by
  have hra' : ¬c.receiver_alive = false := by rw [hra]; simp
  refine ⟨?_, ?_, ?_, oneshot_sends_le_one htr, oneshot_recvs_le_one htr⟩
  · unfold nx_std_sync_oneshot_send
    rw [if_neg hra']
  · unfold nx_std_sync_oneshot_send
    rw [if_neg hra']
  · unfold nx_std_sync_oneshot_send
    rw [if_neg hra']
    rfl

/-- Witness for C10: the schedule of test_0001 (send 0xDEADBEEF, then
recv), as a trace from `create`, together with the send/recv composition
on the fresh channel. -/
theorem oneshot_send_recv_single_use_witness :
    (nx_std_sync_oneshot_send 3735928559 nx_std_sync_oneshot_create).1 = 0 ∧
    (nx_std_sync_oneshot_send 3735928559 nx_std_sync_oneshot_create).2.state =
      OneshotPayload.value 3735928559 ∧
    nx_std_sync_oneshot_recv
        (nx_std_sync_oneshot_send 3735928559 nx_std_sync_oneshot_create).2 =
      some (0, 3735928559,
        { (nx_std_sync_oneshot_send 3735928559 nx_std_sync_oneshot_create).2 with
            state := OneshotPayload.consumed, receiver_alive := false,
            receiver_consumed := true }) ∧
    oneshot_send_successes
        [OneshotLabel.send_ok 3735928559, OneshotLabel.recv_ok 3735928559] ≤ 1 ∧
    oneshot_recv_successes
        [OneshotLabel.send_ok 3735928559, OneshotLabel.recv_ok 3735928559] ≤ 1 :=
  oneshot_send_recv_single_use nx_std_sync_oneshot_create
    ⟨OneshotPayload.consumed, false, false, true, true⟩ 3735928559
    [OneshotLabel.send_ok 3735928559, OneshotLabel.recv_ok 3735928559] rfl
    (OneshotTrace.cons nx_std_sync_oneshot_create
      ⟨OneshotPayload.value 3735928559, false, true, true, false⟩
      ⟨OneshotPayload.consumed, false, false, true, true⟩
      (OneshotLabel.send_ok 3735928559) [OneshotLabel.recv_ok 3735928559]
      (OneshotStep.send_ok nx_std_sync_oneshot_create 3735928559 rfl rfl)
      (OneshotTrace.cons ⟨OneshotPayload.value 3735928559, false, true, true, false⟩
        ⟨OneshotPayload.consumed, false, false, true, true⟩
        ⟨OneshotPayload.consumed, false, false, true, true⟩
        (OneshotLabel.recv_ok 3735928559) []
        (OneshotStep.recv_ok ⟨OneshotPayload.value 3735928559, false, true, true, false⟩
          ⟨OneshotPayload.consumed, false, false, true, true⟩ 3735928559 rfl rfl)
        (OneshotTrace.nil ⟨OneshotPayload.consumed, false, false, true, true⟩)))
